import Mathlib

/-!
Verification of the procedural lighthouse generator (backend/cliff.py,
backend/tower.py, backend/lighthouse.py, backend/config.py).

Shallow embedding conventions:
* Host floats are modelled as exact rationals.
* The host scene kernel (Maya `cmds`) is modelled by its documented
  geometry: `polyCube`/`polyCylinder`/`polySphere` primitives are created
  centred at the local origin; `exactWorldBoundingBox` is the min/max of
  the world positions of all vertices of a transform and its children;
  `move r=True ws=True` translates a whole subtree (so its bounding box)
  by the given deltas.
* The Python `random` module is a process-global stream: a state is a
  (seed, index) pair, `random.seed s` resets it to (s, 0), `random.random`
  reads an abstract Mersenne-Twister value `rand seed index` in [0,1] and
  advances the index.  `random.uniform a b` is `a + (b - a) * random()`
  as in CPython.
* `raise` is modelled with `Except`.
-/

namespace LHT

/-- Scene / material names used by the builders (string constants of the
source). -/
def sROOT : String := "LHT_root_GRP"

def sCLIFF : String := "LHT_cliff_GRP"

def sTOWER : String := "LHT_tower_GRP"

def sENV : String := "LHT_env_GRP"

def sCLIFF_MAT : String := "LHT_cliff_MAT"

def sCLIFF_SG : String := "LHT_cliff_MATSG"

/-- The two quality tiers. -/
def qDRAFT : String := "draft"

def qHIGH : String := "high"

/-- A world-space position. -/
structure Vec3 where
  x : ℚ
  y : ℚ
  z : ℚ
deriving DecidableEq

/-- An axis-aligned world bounding box, the six floats of
`cmds.exactWorldBoundingBox` in the order (min_x, min_y, min_z,
max_x, max_y, max_z). -/
structure BBox where
  minX : ℚ
  minY : ℚ
  minZ : ℚ
  maxX : ℚ
  maxY : ℚ
  maxZ : ℚ
deriving DecidableEq

/-- Minimum of a list of rationals (0 for the empty list, which never
arises: the kernel only reports boxes of existing geometry). -/
def listMin : List ℚ → ℚ
  | [] => 0
  | a :: r => r.foldl min a

/-- Maximum of a list of rationals. -/
def listMax : List ℚ → ℚ
  | [] => 0
  | a :: r => r.foldl max a

/-- `cmds.exactWorldBoundingBox` of a mesh given the world positions of
its vertices. -/
def bboxOfVerts (vs : List Vec3) : BBox :=
  ⟨listMin (vs.map Vec3.x), listMin (vs.map Vec3.y), listMin (vs.map Vec3.z),
   listMax (vs.map Vec3.x), listMax (vs.map Vec3.y), listMax (vs.map Vec3.z)⟩

/-- State of the process-global `random` module: the seed of the stream
in use and how many values were already drawn from it. -/
structure RandState where
  seed : ℤ
  idx : ℕ
deriving DecidableEq

/-- `random.seed s`. -/
def randomSeed (s : ℤ) : RandState := ⟨s, 0⟩

/-- `random.random()` against an abstract generator `rand`: the next value
of the stream, and the advanced state. -/
def drawU (rand : ℤ → ℕ → ℚ) (st : RandState) : ℚ × RandState :=
  (rand st.seed st.idx, ⟨st.seed, st.idx + 1⟩)

/-- `random.uniform a b = a + (b - a) * random()` (CPython). -/
def pyUniform (rand : ℤ → ℕ → ℚ) (st : RandState) (a b : ℚ) : ℚ × RandState :=
  let r := drawU rand st
  (a + (b - a) * r.1, r.2)

/-- A generator whose stream stays in [0,1], as `random.random` does. -/
def UnitStream (rand : ℤ → ℕ → ℚ) : Prop :=
  ∀ s n, 0 ≤ rand s n ∧ rand s n ≤ 1

/-- Python `int(q)`: truncation toward zero. -/
def pyInt (q : ℚ) : ℤ := if 0 ≤ q then ⌊q⌋ else ⌈q⌉

/-! ## backend/cliff.py and backend/tower.py : parameter records -/

/-- `CliffParams` of backend/cliff.py.  The dataclass declares exactly
these fields; in particular it has NO `quality` field. -/
structure CliffParams where
  name : String := "cliff_GEO"
  width : ℚ := 30
  height : ℚ := 10
  depth : ℚ := 30
  sub_x : ℕ := 40
  sub_y : ℕ := 20
  sub_z : ℕ := 40
  noise_amplitude : ℚ := 12/10
  seed : ℤ := 42
  enable_face_colors : Bool := true
  face_color_base : ℚ := 35/100
  face_color_variation : ℚ := 8/100
deriving DecidableEq

/-- `TowerParams` of backend/tower.py.  `band_height_frac` is the source
field `band_height_ratio` (renamed). -/
structure TowerParams where
  name : String := "tower_GEO"
  height : ℚ := 28
  radius_base : ℚ := 4
  radius_top : ℚ := 3
  subdivisions_axis : ℕ := 24
  subdivisions_height : ℕ := 10
  quality : String := "draft"
  add_bands : Bool := true
  band_count : ℕ := 3
  band_height_frac : ℚ := 8/100
  band_outset : ℚ := 15/100
  add_door : Bool := true
  door_width : ℚ := 16/10
  door_height : ℚ := 32/10
  door_depth : ℚ := 2/10
  add_lantern : Bool := true
  lantern_height : ℚ := 35/10
  lantern_radius : ℚ := 22/10
  lantern_roof_height : ℚ := 14/10
deriving DecidableEq

/-- The field names of the `CliffParams` dataclass, as Python spells them. -/
def cliffParamsFields : List String :=
  [r"name", r"width", r"height", r"depth", r"sub_x", r"sub_y", r"sub_z",
   r"noise_amplitude", r"seed", r"enable_face_colors", r"face_color_base",
   r"face_color_variation"]

/-- The field names of the `TowerParams` dataclass, as Python spells them. -/
def towerParamsFields : List String :=
  [r"name", r"height", r"radius_base", r"radius_top", r"subdivisions_axis",
   r"subdivisions_height", r"quality", r"add_bands", r"band_count",
   r"band_height_ratio", r"band_outset", r"add_door", r"door_width",
   r"door_height", r"door_depth", r"add_lantern", r"lantern_height",
   r"lantern_radius", r"lantern_roof_height"]

/-- Message prefix of the `TypeError` a Python dataclass raises on an
unknown keyword argument. -/
def eUnexpectedKw : String := "TypeError: got an unexpected keyword argument "

/-- Calling a dataclass constructor with keyword arguments `kwargs`:
Python raises `TypeError` when a keyword is not a declared field,
otherwise the record `value` built from them is returned. -/
def dataclassCall (fields : List String) (kwargs : List String) {α : Type}
    (value : α) : Except String α :=
  match kwargs.find? (fun k => !fields.contains k) with
  | some k => .error (eUnexpectedKw ++ k)
  | none => .ok value

/-- Python `str.lower()` (ASCII inputs). -/
def pyLower (s : String) : String := ⟨s.data.map Char.toLower⟩

/-! ## backend/cliff.py : base cube and vertex noise -/

/-- One grid coordinate of a subdivided primitive: the i-th of `subs`
equal steps of `size` starting at `lo`. -/
def gridPt (lo size : ℚ) (subs : ℕ) (i : ℕ) : ℚ := lo + size * i / subs

/-- The vertex set of `cmds.polyCube(w=w, h=h, d=d, sx, sy, sz)`: the
grid points on the surface of a box of those dimensions centred at the
local origin (Maya creates the cube about its pivot at the origin;
`_create_base_cube` never translates it, and `cmds.parent` /
`cmds.makeIdentity` preserve world positions).  The kernel's enumeration
order is abstracted; no claim here depends on it. -/
def polyCubeVerts (w h d : ℚ) (sx sy sz : ℕ) : List Vec3 :=
  (List.range (sx+1)).flatMap fun i =>
    (List.range (sy+1)).flatMap fun j =>
      ((List.range (sz+1)).filter fun k =>
        i == 0 || i == sx || j == 0 || j == sy || k == 0 || k == sz).map fun k =>
        ⟨gridPt (-(w * (1/2))) w sx i, gridPt (-(h * (1/2))) h sy j,
         gridPt (-(d * (1/2))) d sz k⟩

/-- `height_range = max(max_y - min_y, 0.0001)` of `_apply_vertex_noise`. -/
def heightRangeOf (minY maxY : ℚ) : ℚ := max (maxY - minY) (1/10000)

/-- `strength = p.noise_amplitude * (0.25 + 0.75 * y_norm)`. -/
def noiseStrength (amp yNorm : ℚ) : ℚ := amp * (1/4 + (3/4) * yNorm)

/-- The three uniform draws of one loop iteration of
`_apply_vertex_noise`: dx and dz in [-strength, strength], dy in
[-strength * 0.35, strength * 0.35]. -/
def noiseOffsets (rand : ℤ → ℕ → ℚ) (st : RandState) (s : ℚ) :
    (ℚ × ℚ × ℚ) × RandState :=
  let x := pyUniform rand st (-s) s
  let y := pyUniform rand x.2 (-s * (35/100)) (s * (35/100))
  let z := pyUniform rand y.2 (-s) s
  ((x.1, y.1, z.1), z.2)

/-- The per-vertex loop of `_apply_vertex_noise`: each vertex is moved
relatively by the drawn offsets; `y_norm` uses the vertex position read
in its own iteration (each vertex is read before it is moved) against the
bounding box queried once before the loop. -/
def noiseLoop (rand : ℤ → ℕ → ℚ) (amp minY hr : ℚ) (st : RandState) :
    List Vec3 → List Vec3 × RandState
  | [] => ([], st)
  | v :: rest =>
    let yN := (v.y - minY) / hr
    let s := noiseStrength amp yN
    let o := noiseOffsets rand st s
    let tail := noiseLoop rand amp minY hr o.2 rest
    (⟨v.x + o.1.1, v.y + o.1.2.1, v.z + o.1.2.2⟩ :: tail.1, tail.2)

/-- `CliffBuilder._apply_vertex_noise`: seeds the global stream with
`p.seed` (whatever state `st0` it was in), returns with no displacement
for a mesh without vertices, else displaces every vertex
height-weightedly. -/
def applyVertexNoise (rand : ℤ → ℕ → ℚ) (p : CliffParams) (st0 : RandState)
    (vs : List Vec3) : List Vec3 × RandState :=
  let st := randomSeed p.seed
  if vs.isEmpty then (vs, st)
  else
    let bb := bboxOfVerts vs
    noiseLoop rand p.noise_amplitude bb.minY (heightRangeOf bb.minY bb.maxY) st vs

/-- `max(0.0, min(1.0, c))`. -/
def pyClamp01 (c : ℚ) : ℚ := max 0 (min 1 c)

/-- `CliffBuilder._apply_face_color_variation`: the grey value painted on
each of the `numFaces` faces, in face order.  With face colors disabled
the method returns before touching the random stream; otherwise it seeds
with `p.seed + 1000` and draws one uniform in [-variation, variation] per
face. -/
def applyFaceColorVariation (rand : ℤ → ℕ → ℚ) (p : CliffParams)
    (st0 : RandState) (numFaces : ℕ) : List ℚ × RandState :=
  if !p.enable_face_colors then ([], st0)
  else
    let st := randomSeed (p.seed + 1000)
    (List.range numFaces).foldl
      (fun acc _ =>
        let u := pyUniform rand acc.2 (-p.face_color_variation)
          p.face_color_variation
        (acc.1 ++ [pyClamp01 (p.face_color_base + u.1)], u.2))
      ([], st)

/-- The cliff vertex positions `CliffBuilder.build` produces: the
subdivided cube deformed by `_apply_vertex_noise` (parenting, materials
and the preview light never move vertices; `_apply_face_color_variation`
only paints faces). -/
def buildCliffVerts (rand : ℤ → ℕ → ℚ) (p : CliffParams) (st0 : RandState) :
    List Vec3 × RandState :=
  applyVertexNoise rand p st0
    (polyCubeVerts p.width p.height p.depth p.sub_x p.sub_y p.sub_z)

/-- `y_norm` of a vertex of a mesh, as `_apply_vertex_noise` computes it:
the vertex world Y normalized against the mesh's own bounding box, with
the `0.0001` denominator guard. -/
def yNormOf (vs : List Vec3) (v : Vec3) : ℚ :=
  (v.y - (bboxOfVerts vs).minY) /
    heightRangeOf (bboxOfVerts vs).minY (bboxOfVerts vs).maxY

/-- Squared euclidean length of an offset triple. -/
def normSq3 (o : ℚ × ℚ × ℚ) : ℚ := o.1 ^ 2 + o.2.1 ^ 2 + o.2.2 ^ 2

/-- The largest squared displacement `_apply_vertex_noise` can give a
vertex of strength `s = noiseStrength amp yN`: both horizontal draws at
`±s` and the vertical draw at `±0.35 s`, so `s^2 * (2 + 0.35^2)`. -/
def maxDispSq (amp yN : ℚ) : ℚ := (noiseStrength amp yN) ^ 2 * (2 + 49/400)

/-- The cliff parameters of the end-to-end zero-noise scenario:
`width=30, height=10, depth=30, noise_amplitude=0`, with the seed and the
subdivision counts free. -/
def cliffZeroAmpParams (seed : ℤ) (sx sy sz : ℕ) : CliffParams :=
  { width := 30, height := 10, depth := 30, sub_x := sx, sub_y := sy,
    sub_z := sz, noise_amplitude := 0, seed := seed }

/-! ## backend/tower.py : tapered cylinder and lantern dome -/

/-- Identity of a vertex of a default Maya polyCylinder: ring vertices
(height level 0..sy, spoke 0..sx-1) and the two cap-centre pole
vertices.  Maya's default cylinder (subdivisionsCaps = 1, roundCap off)
closes each cap with a fan of `sx` triangles around such a pole. -/
inductive CylVertId where
  | ring (level : ℕ) (spoke : ℕ)
  | bottomPole
  | topPole
deriving DecidableEq

/-- A polyCylinder vertex in cylindrical coordinates: its horizontal
distance from the local Y axis and its local Y.  A uniform XZ scale about
the local origin multiplies `radius` and keeps `y`; the spoke angle never
changes, so it stays implicit in the identity. -/
structure CylVert where
  vid : CylVertId
  radius : ℚ
  y : ℚ
deriving DecidableEq

/-- The vertex set of `cmds.polyCylinder(h=h, r=r, sx=sx, sy=sy)`:
`sx * (sy + 1)` ring vertices at radius `r` on `sy + 1` evenly spaced
levels of a cylinder centred at the origin, plus the two cap poles on the
axis. -/
def polyCylinderVerts (h r : ℚ) (sx sy : ℕ) : List CylVert :=
  ((List.range (sy + 1)).flatMap fun j =>
    (List.range sx).map fun i =>
      ⟨.ring j i, r, -(h * (1/2)) + h * j / sy⟩) ++
  [⟨.bottomPole, 0, -(h * (1/2))⟩, ⟨.topPole, 0, h * (1/2)⟩]

/-- The vertex set of the LAST face of the default polyCylinder,
`f[sx*sy + 2*sx - 1]`: faces are ordered side quads, bottom-cap fan,
top-cap fan, so the last face is the final top-cap triangle — the top
pole and the two adjacent top-ring vertices it spans (spokes sx-1 and 0).
This is what `polyListComponentConversion(top_cap, toVertex=True)`
returns for the face `_create_tapered_cylinder` selects. -/
def lastTopCapFaceVertIds (sx sy : ℕ) : List CylVertId :=
  [.topPole, .ring sy (sx - 1), .ring sy 0]

/-- `cmds.scale(s, 1.0, s, verts, r=True, os=True)` on a set of
vertices of an identity-transform mesh: vertices of the set get their
horizontal distance from the axis multiplied by `s`, the rest stay. -/
def scaleVertsXZ (targets : List CylVertId) (s : ℚ) (vs : List CylVert) :
    List CylVert :=
  vs.map fun v =>
    if targets.contains v.vid then { v with radius := v.radius * s } else v

/-- `TowerBuilder._create_tapered_cylinder`: draft quality forces
subdivisions (16, 6); the cylinder is created, and when
`radius_base > 0.0001` the vertex set of the last face (intended as the
top cap) is scaled by `radius_top / radius_base` in XZ; otherwise the
unmodified cylinder is emitted. -/
def createTaperedCylinder (p : TowerParams) : List CylVert :=
  let subAx := if p.quality = qDRAFT then 16 else p.subdivisions_axis
  let subH := if p.quality = qDRAFT then 6 else p.subdivisions_height
  let verts := polyCylinderVerts p.height p.radius_base subAx subH
  if p.radius_base > 1/10000 then
    scaleVertsXZ (lastTopCapFaceVertIds subAx subH)
      (p.radius_top / p.radius_base) verts
  else verts

/-- The tower parameters of the end-to-end taper scenario:
`radius_base = 4.0`, `radius_top = 2.0` (draft quality, so 16 spokes). -/
def taperScenarioParams : TowerParams := { radius_base := 4, radius_top := 2 }

/-- The face-culling step of `TowerBuilder._add_lantern` that turns the
roof sphere into a dome, parametric in the kernel data: `centroids` are
the world-space Y components of `cmds.xform(f, q=True, ws=True, t=True)`
for the sphere's faces in order, `centerY` the sphere centre's Y.  At
draft quality only every 8th face is examined (`faces[::8]`); every
examined face with centroid Y below the centre is deleted; the kept faces
are returned as (index, centroid Y) pairs. -/
def roofCullKeep (quality : String) (centroids : List ℚ) (centerY : ℚ) :
    List (ℕ × ℚ) :=
  let faces := centroids.enum
  let tested := if quality = qDRAFT
    then faces.filter (fun f => f.1 % 8 == 0) else faces
  let toDelete := tested.filter (fun f => decide (f.2 < centerY))
  faces.filter (fun f => !(toDelete.contains f))

/-! ## backend/lighthouse.py : stable-top placement -/

/-- `PlacementParams` of backend/lighthouse.py.  `topShare` is the source
field `top_ratio` (renamed). -/
structure PlacementParams where
  topShare : ℚ := 10/100
  y_offset : ℚ := -(20/100)
deriving DecidableEq

/-- `LighthouseBuilder._get_cliff_top_y(transform, top_ratio)`: the mean
world Y of the top `top_ratio` share (at least one) of the vertices,
sorted ascending; with no enumerable vertices, the bounding-box max Y.
`ys` are the world Y coordinates of the vertices of the transform in
kernel order, `bbMaxY` the kernel bounding-box maximum Y. -/
def getCliffTopY (ys : List ℚ) (bbMaxY : ℚ) (share : ℚ) : ℚ :=
  if ys.isEmpty then bbMaxY
  else
    let sorted := List.insertionSort (· ≤ ·) ys
    let topCount := max 1 (pyInt ((sorted.length : ℚ) * share)).toNat
    let slice := sorted.drop (sorted.length - topCount)
    slice.sum / (slice.length : ℚ)

/-- The relative world-space deltas (dx, dy, dz) that
`LighthouseBuilder._place_tower_on_cliff` passes to `cmds.move`: `cliffBB`
is the cliff bounding box, `cliffYs` the cliff vertex world Y list,
`towerBB` the current tower bounding box (children included). -/
def placeTowerDeltas (cliffBB : BBox) (cliffYs : List ℚ) (pl : PlacementParams)
    (towerBB : BBox) : ℚ × ℚ × ℚ :=
  let baseCx := (cliffBB.minX + cliffBB.maxX) * (1/2)
  let baseCz := (cliffBB.minZ + cliffBB.maxZ) * (1/2)
  let baseTopY := getCliffTopY cliffYs cliffBB.maxY pl.topShare
  let targetBaseY := baseTopY + pl.y_offset
  let towCx := (towerBB.minX + towerBB.maxX) * (1/2)
  let towCz := (towerBB.minZ + towerBB.maxZ) * (1/2)
  (baseCx - towCx, targetBaseY - towerBB.minY, baseCz - towCz)

/-- Translating a subtree by (dx, dy, dz) translates its bounding box. -/
def translateBBox (b : BBox) (dx dy dz : ℚ) : BBox :=
  ⟨b.minX + dx, b.minY + dy, b.minZ + dz, b.maxX + dx, b.maxY + dy, b.maxZ + dz⟩

/-- The tower bounding box after `_place_tower_on_cliff`: the relative
`cmds.move` of the deltas applied to the tower subtree. -/
def placeTowerOnCliff (cliffBB : BBox) (cliffYs : List ℚ) (pl : PlacementParams)
    (towerBB : BBox) : BBox :=
  let d := placeTowerDeltas cliffBB cliffYs pl towerBB
  translateBBox towerBB d.1 d.2.1 d.2.2

/-! ## Scene composition: `_ensure_groups` and `cleanup` -/

/-- A node of the host scene: its unique name and (for DAG nodes) the
name of its parent.  DG nodes such as materials and shading groups have
no parent. -/
structure SceneNode where
  name : String
  parent : Option String
deriving DecidableEq

/-- The host scene as the ordered list of its nodes. -/
abbrev Scene := List SceneNode

/-- `cmds.objExists(n)`. -/
def objExists (s : Scene) (n : String) : Bool := s.any (fun nd => nd.name == n)

/-- `cmds.group(empty=True, name=n, parent=p)` (`p = none` for a world
group). -/
def addGroup (s : Scene) (n : String) (p : Option String) : Scene :=
  s ++ [⟨n, p⟩]

/-- The recurring ensure step of the builders:
`if not cmds.objExists(n): cmds.group(empty=True, name=n, parent=p)`. -/
def ensureOne (s : Scene) (n : String) (p : Option String) : Scene :=
  if objExists s n then s else addGroup s n p

/-- `CliffBuilder._ensure_groups`: root group, then cliff group under it
(the visibility attribute written on creation is 1, its default). -/
def ensureCliffGroups (s : Scene) : Scene :=
  ensureOne (ensureOne s sROOT none) sCLIFF (some sROOT)

/-- `TowerBuilder._ensure_groups`: root group, then tower group under it. -/
def ensureTowerGroups (s : Scene) : Scene :=
  ensureOne (ensureOne s sROOT none) sTOWER (some sROOT)

/-- The env-group ensure at the top of
`LighthouseBuilder._build_environment` (the root exists by build order). -/
def ensureEnvGroup (s : Scene) : Scene :=
  ensureOne s sENV (some sROOT)

/-- How many nodes of the scene carry a name. -/
def countName (s : Scene) (n : String) : ℕ :=
  (s.filter (fun nd => nd.name == n)).length

/-- The parent of the named node, if any. -/
def parentOf (s : Scene) (n : String) : Option String :=
  match s.find? (fun nd => nd.name == n) with
  | some nd => nd.parent
  | none => none

/-- Whether a name is the root group or lies under it, following parent
links (fuel-bounded; `s.length` suffices for any acyclic scene). -/
def underRoot (s : Scene) : ℕ → String → Bool
  | 0, n => n == sROOT
  | fuel+1, n =>
    n == sROOT ||
      match parentOf s n with
      | some p => underRoot s fuel p
      | none => false

/-- `CliffBuilder.cleanup` (and `LighthouseBuilder.cleanup`, which just
calls it): `if cmds.objExists(ROOT_GRP): cmds.delete(ROOT_GRP)` —
deleting a DAG node deletes its whole subtree and nothing else. -/
def cleanup (s : Scene) : Scene :=
  if objExists s sROOT then s.filter (fun nd => !underRoot s s.length nd.name)
  else s

/-- A scene as one cliff build leaves it: the root group, the cliff group
under it, and the memoized material and shading-group nodes, which are
NOT parented under the root. -/
def exampleBuiltScene : Scene :=
  [⟨sROOT, none⟩, ⟨sCLIFF, some sROOT⟩, ⟨sCLIFF_MAT, none⟩,
   ⟨sCLIFF_SG, none⟩]

/-- `LighthouseParams` of backend/lighthouse.py. -/
structure LighthouseParams where
  cliff : CliffParams
  tower : TowerParams
  placement : PlacementParams := {}
deriving DecidableEq

/-! ## backend/config.py : presets -/

def pSHUTTER : String := "shutter"

def pCALM : String := "calm"

def pSTORM : String := "storm"

/-- Message of the `ValueError` for an unknown preset. -/
def eUnknownPreset : String := "ValueError: Unknown preset: "

/-- A mixed-case spelling of the shutter preset, as the UI menu shows it. -/
def pShutterTitle : String := "Shutter"

def pBOGUS : String := "bogus"

/-- `get_preset(name, quality)` of backend/config.py.  The name is
lowercased; each known preset constructs `CliffParams(quality=quality,
...)` and `TowerParams(quality=quality, ...)` — keyword calls modelled by
`dataclassCall` with the keyword lists the source writes — and an unknown
name raises `ValueError`.  The record passed as `value` carries the field
values of the keywords the dataclass does accept, defaults elsewhere. -/
def get_preset (name : String) (quality : String) : Except String LighthouseParams :=
  let name := pyLower name
  if name = pSHUTTER then do
    let cliff ← dataclassCall cliffParamsFields
      [r"quality", r"width", r"height", r"depth", r"noise_amplitude", r"seed"]
      { width := 40, height := 14, depth := 40, noise_amplitude := 18/10,
        seed := 11 : CliffParams }
    let tower ← dataclassCall towerParamsFields
      [r"quality", r"height", r"radius_base", r"radius_top"]
      { quality := quality, height := 30, radius_base := 42/10,
        radius_top := 28/10 : TowerParams }
    .ok { cliff := cliff, tower := tower,
          placement := { topShare := 8/100, y_offset := -(35/100) } }
  else if name = pCALM then do
    let cliff ← dataclassCall cliffParamsFields
      [r"quality", r"width", r"height", r"depth", r"noise_amplitude", r"seed"]
      { width := 32, height := 10, depth := 32, noise_amplitude := 1,
        seed := 3 : CliffParams }
    let tower ← dataclassCall towerParamsFields
      [r"quality", r"height", r"radius_base", r"radius_top"]
      { quality := quality, height := 26, radius_base := 4,
        radius_top := 35/10 : TowerParams }
    .ok { cliff := cliff, tower := tower,
          placement := { topShare := 10/100, y_offset := -(25/100) } }
  else if name = pSTORM then do
    let cliff ← dataclassCall cliffParamsFields
      [r"quality", r"width", r"height", r"depth", r"noise_amplitude", r"seed"]
      { width := 45, height := 18, depth := 45, noise_amplitude := 22/10,
        seed := 27 : CliffParams }
    let tower ← dataclassCall towerParamsFields
      [r"quality", r"height", r"radius_base", r"radius_top"]
      { quality := quality, height := 34, radius_base := 4,
        radius_top := 25/10 : TowerParams }
    .ok { cliff := cliff, tower := tower,
          placement := { topShare := 6/100, y_offset := -(45/100) } }
  else
    .error (eUnknownPreset ++ name)

end LHT

namespace LHT

/-- Helper: a min-fold is at most its initial value. -/
theorem foldl_min_le_init (l : List ℚ) (b : ℚ) : l.foldl min b ≤ b := by
  induction l generalizing b with
  | nil => exact le_refl b
  | cons c t ih => exact le_trans (ih (min b c)) (min_le_left b c)

/-- Helper: a min-fold is at most any list element. -/
theorem foldl_min_le_mem {a : ℚ} {l : List ℚ} (h : a ∈ l) (b : ℚ) :
    l.foldl min b ≤ a := by
  induction l generalizing b with
  | nil => cases h
  | cons c t ih =>
    rcases List.mem_cons.mp h with rfl | h2
    · exact le_trans (foldl_min_le_init t (min b a)) (min_le_right b a)
    · exact ih h2 (min b c)

/-- Helper: a lower bound of the initial value and all elements bounds the
min-fold. -/
theorem le_foldl_min {c : ℚ} {l : List ℚ} (b : ℚ) (hb : c ≤ b)
    (h : ∀ a ∈ l, c ≤ a) : c ≤ l.foldl min b := by
  induction l generalizing b with
  | nil => exact hb
  | cons d t ih =>
    exact ih (min b d) (le_min hb (h d (List.mem_cons_self d t)))
      (fun a ha => h a (List.mem_cons_of_mem d ha))

/-- Helper: a max-fold is at least its initial value. -/
theorem init_le_foldl_max (l : List ℚ) (b : ℚ) : b ≤ l.foldl max b := by
  induction l generalizing b with
  | nil => exact le_refl b
  | cons c t ih => exact le_trans (le_max_left b c) (ih (max b c))

/-- Helper: a max-fold is at least any list element. -/
theorem mem_le_foldl_max {a : ℚ} {l : List ℚ} (h : a ∈ l) (b : ℚ) :
    a ≤ l.foldl max b := by
  induction l generalizing b with
  | nil => cases h
  | cons c t ih =>
    rcases List.mem_cons.mp h with rfl | h2
    · exact le_trans (le_max_right b a) (init_le_foldl_max t (max b a))
    · exact ih h2 (max b c)

/-- Helper: an upper bound of the initial value and all elements bounds
the max-fold. -/
theorem foldl_max_le {c : ℚ} {l : List ℚ} (b : ℚ) (hb : b ≤ c)
    (h : ∀ a ∈ l, a ≤ c) : l.foldl max b ≤ c := by
  induction l generalizing b with
  | nil => exact hb
  | cons d t ih =>
    exact ih (max b d) (max_le hb (h d (List.mem_cons_self d t)))
      (fun a ha => h a (List.mem_cons_of_mem d ha))

/-- Helper: the list minimum is at most any element. -/
theorem listMin_le {l : List ℚ} {a : ℚ} (h : a ∈ l) : listMin l ≤ a := by
  cases l with
  | nil => cases h
  | cons b t =>
    rcases List.mem_cons.mp h with rfl | h2
    · exact foldl_min_le_init t a
    · exact foldl_min_le_mem h2 b

/-- Helper: a lower bound of a nonempty list bounds its minimum. -/
theorem le_listMin {l : List ℚ} {c : ℚ} (hne : l ≠ []) (h : ∀ a ∈ l, c ≤ a) :
    c ≤ listMin l := by
  cases l with
  | nil => exact absurd rfl hne
  | cons b t =>
    exact le_foldl_min b (h b (List.mem_cons_self b t))
      (fun a ha => h a (List.mem_cons_of_mem b ha))

/-- Helper: the minimum of a list is the value attained by a member that
bounds every member from below. -/
theorem listMin_eq_of {l : List ℚ} {a : ℚ} (mem : a ∈ l)
    (lb : ∀ b ∈ l, a ≤ b) : listMin l = a :=
  le_antisymm (listMin_le mem) (le_listMin (List.ne_nil_of_mem mem) lb)

/-- Helper: the list maximum is at least any element. -/
theorem le_listMax {l : List ℚ} {a : ℚ} (h : a ∈ l) : a ≤ listMax l := by
  cases l with
  | nil => cases h
  | cons b t =>
    rcases List.mem_cons.mp h with rfl | h2
    · exact init_le_foldl_max t a
    · exact mem_le_foldl_max h2 b

/-- Helper: an upper bound of a nonempty list bounds its maximum. -/
theorem listMax_le {l : List ℚ} {c : ℚ} (hne : l ≠ []) (h : ∀ a ∈ l, a ≤ c) :
    listMax l ≤ c := by
  cases l with
  | nil => exact absurd rfl hne
  | cons b t =>
    exact foldl_max_le b (h b (List.mem_cons_self b t))
      (fun a ha => h a (List.mem_cons_of_mem b ha))

/-- Helper: the maximum of a list is the value attained by a member that
bounds every member from above. -/
theorem listMax_eq_of {l : List ℚ} {a : ℚ} (mem : a ∈ l)
    (ub : ∀ b ∈ l, b ≤ a) : listMax l = a :=
  le_antisymm (listMax_le (List.ne_nil_of_mem mem) ub) (le_listMax mem)

/-- Helper: with `noise_amplitude = 0` the strength is 0 and every drawn
offset is exactly 0, whatever the stream and its state. -/
theorem noiseOffsets_strength_zero (rand : ℤ → ℕ → ℚ) (st : RandState)
    (yN : ℚ) : (noiseOffsets rand st (noiseStrength 0 yN)).1 = (0, 0, 0) := by
  simp [noiseOffsets, noiseStrength, pyUniform, drawU]

/-- Helper: the vertex loop with amplitude 0 moves nothing. -/
theorem noiseLoop_amp_zero (rand : ℤ → ℕ → ℚ) (minY hr : ℚ) (st : RandState)
    (vs : List Vec3) : (noiseLoop rand 0 minY hr st vs).1 = vs := by
  induction vs generalizing st with
  | nil => rfl
  | cons v t ih =>
    have h0 := noiseOffsets_strength_zero rand st ((v.y - minY) / hr)
    simp [noiseLoop, h0, ih]

/-- Helper: `_apply_vertex_noise` with `noise_amplitude = 0` leaves every
vertex where it was. -/
theorem applyVertexNoise_amp_zero (rand : ℤ → ℕ → ℚ) (p : CliffParams)
    (st0 : RandState) (vs : List Vec3) (hamp : p.noise_amplitude = 0) :
    (applyVertexNoise rand p st0 vs).1 = vs := by
  unfold applyVertexNoise
  by_cases hv : vs.isEmpty
  · simp [hv]
  · simp [hv, hamp, noiseLoop_amp_zero]

/-- Helper: membership in the polyCube vertex grid. -/
theorem mem_polyCubeVerts {w h d : ℚ} {sx sy sz : ℕ} {v : Vec3} :
    v ∈ polyCubeVerts w h d sx sy sz ↔
      ∃ i, i ≤ sx ∧ ∃ j, j ≤ sy ∧ ∃ k, k ≤ sz ∧
        (i = 0 ∨ i = sx ∨ j = 0 ∨ j = sy ∨ k = 0 ∨ k = sz) ∧
        v = ⟨gridPt (-(w * (1/2))) w sx i, gridPt (-(h * (1/2))) h sy j,
             gridPt (-(d * (1/2))) d sz k⟩ := by
  simp only [polyCubeVerts, List.mem_flatMap, List.mem_map, List.mem_filter,
    List.mem_range, Nat.lt_succ_iff, Bool.or_eq_true, beq_iff_eq]
  constructor
  · rintro ⟨i, hi, j, hj, k, ⟨hk, hcond⟩, rfl⟩
    exact ⟨i, hi, j, hj, k, hk, by tauto, rfl⟩
  · rintro ⟨i, hi, j, hj, k, hk, hcond, rfl⟩
    exact ⟨i, hi, j, hj, k, ⟨hk, by tauto⟩, rfl⟩

/-- Helper: the first grid point is the low face. -/
theorem gridPt_zero (lo size : ℚ) (subs : ℕ) : gridPt lo size subs 0 = lo := by
  simp [gridPt]

/-- Helper: the last grid point is the high face. -/
theorem gridPt_last (lo size : ℚ) {subs : ℕ} (hs : subs ≠ 0) :
    gridPt lo size subs subs = lo + size := by
  have hq : ((subs : ℚ)) ≠ 0 := Nat.cast_ne_zero.mpr hs
  rw [gridPt, mul_div_assoc, div_self hq, mul_one]

/-- Helper: grid points stay between the faces. -/
theorem gridPt_bounds {size : ℚ} (h0 : 0 ≤ size) (lo : ℚ) {subs i : ℕ}
    (hs : subs ≠ 0) (hi : i ≤ subs) :
    lo ≤ gridPt lo size subs i ∧ gridPt lo size subs i ≤ lo + size := by
  have hsp : (0:ℚ) < subs := Nat.cast_pos.mpr (Nat.pos_of_ne_zero hs)
  have hiq : (i:ℚ) ≤ subs := Nat.cast_le.mpr hi
  have hi0 : (0:ℚ) ≤ i := Nat.cast_nonneg i
  constructor
  · have hnn : 0 ≤ size * i / subs := by positivity
    rw [gridPt]; linarith
  · have hub : size * i / subs ≤ size := by
      rw [div_le_iff hsp]; nlinarith
    rw [gridPt]; linarith

/-- Helper: the bounding box of the undeformed polyCube is exactly the
box of its dimensions, centred at the origin. -/
theorem polyCubeVerts_bbox (w h d : ℚ) (hw : 0 ≤ w) (hh : 0 ≤ h)
    (hd : 0 ≤ d) {sx sy sz : ℕ} (hx : sx ≠ 0) (hy : sy ≠ 0) (hz : sz ≠ 0) :
    bboxOfVerts (polyCubeVerts w h d sx sy sz) =
      ⟨-(w * (1/2)), -(h * (1/2)), -(d * (1/2)),
       -(w * (1/2)) + w, -(h * (1/2)) + h, -(d * (1/2)) + d⟩ := by
  have hminMem : (⟨-(w * (1/2)), -(h * (1/2)), -(d * (1/2))⟩ : Vec3) ∈
      polyCubeVerts w h d sx sy sz := by
    rw [mem_polyCubeVerts]
    exact ⟨0, Nat.zero_le _, 0, Nat.zero_le _, 0, Nat.zero_le _, Or.inl rfl,
      by simp [gridPt_zero]⟩
  have hmaxMem : (⟨-(w * (1/2)) + w, -(h * (1/2)) + h, -(d * (1/2)) + d⟩ :
      Vec3) ∈ polyCubeVerts w h d sx sy sz := by
    rw [mem_polyCubeVerts]
    exact ⟨sx, le_refl _, sy, le_refl _, sz, le_refl _, Or.inr (Or.inl rfl),
      by rw [gridPt_last _ _ hx, gridPt_last _ _ hy, gridPt_last _ _ hz]⟩
  have hbnd : ∀ v ∈ polyCubeVerts w h d sx sy sz,
      (-(w * (1/2)) ≤ v.x ∧ v.x ≤ -(w * (1/2)) + w) ∧
      (-(h * (1/2)) ≤ v.y ∧ v.y ≤ -(h * (1/2)) + h) ∧
      (-(d * (1/2)) ≤ v.z ∧ v.z ≤ -(d * (1/2)) + d) := by
    intro v hv
    rw [mem_polyCubeVerts] at hv
    obtain ⟨i, hi, j, hj, k, hk, -, rfl⟩ := hv
    exact ⟨gridPt_bounds hw _ hx hi, gridPt_bounds hh _ hy hj,
      gridPt_bounds hd _ hz hk⟩
  have e1 : listMin ((polyCubeVerts w h d sx sy sz).map Vec3.x) =
      -(w * (1/2)) := by
    refine listMin_eq_of (List.mem_map.mpr ⟨_, hminMem, rfl⟩) ?_
    rintro b hb
    obtain ⟨v, hv, rfl⟩ := List.mem_map.mp hb
    exact ((hbnd v hv).1).1
  have e2 : listMin ((polyCubeVerts w h d sx sy sz).map Vec3.y) =
      -(h * (1/2)) := by
    refine listMin_eq_of (List.mem_map.mpr ⟨_, hminMem, rfl⟩) ?_
    rintro b hb
    obtain ⟨v, hv, rfl⟩ := List.mem_map.mp hb
    exact ((hbnd v hv).2.1).1
  have e3 : listMin ((polyCubeVerts w h d sx sy sz).map Vec3.z) =
      -(d * (1/2)) := by
    refine listMin_eq_of (List.mem_map.mpr ⟨_, hminMem, rfl⟩) ?_
    rintro b hb
    obtain ⟨v, hv, rfl⟩ := List.mem_map.mp hb
    exact ((hbnd v hv).2.2).1
  have e4 : listMax ((polyCubeVerts w h d sx sy sz).map Vec3.x) =
      -(w * (1/2)) + w := by
    refine listMax_eq_of (List.mem_map.mpr ⟨_, hmaxMem, rfl⟩) ?_
    rintro b hb
    obtain ⟨v, hv, rfl⟩ := List.mem_map.mp hb
    exact ((hbnd v hv).1).2
  have e5 : listMax ((polyCubeVerts w h d sx sy sz).map Vec3.y) =
      -(h * (1/2)) + h := by
    refine listMax_eq_of (List.mem_map.mpr ⟨_, hmaxMem, rfl⟩) ?_
    rintro b hb
    obtain ⟨v, hv, rfl⟩ := List.mem_map.mp hb
    exact ((hbnd v hv).2.1).2
  have e6 : listMax ((polyCubeVerts w h d sx sy sz).map Vec3.z) =
      -(d * (1/2)) + d := by
    refine listMax_eq_of (List.mem_map.mpr ⟨_, hmaxMem, rfl⟩) ?_
    rintro b hb
    obtain ⟨v, hv, rfl⟩ := List.mem_map.mp hb
    exact ((hbnd v hv).2.2).2
  simp [bboxOfVerts, e1, e2, e3, e4, e5, e6]

/-- Helper: with the `max 1` clamp of `_get_cliff_top_y`, Python `int`
truncation agrees with the floor. -/
theorem max_one_pyInt_toNat (q : ℚ) :
    max 1 (pyInt q).toNat = max 1 ⌊q⌋.toNat := by
  unfold pyInt
  by_cases h : 0 ≤ q
  · rw [if_pos h]
  · rw [if_neg h]
    have hq : q ≤ 0 := le_of_lt (lt_of_not_ge h)
    have hc : (⌈q⌉ : ℤ) ≤ 0 := Int.ceil_le.2 (by exact_mod_cast hq)
    have hf : (⌊q⌋ : ℤ) ≤ 0 := le_trans (Int.floor_le_ceil q) hc
    rw [Int.toNat_of_nonpos hc, Int.toNat_of_nonpos hf]

/-- C1: after `_place_tower_on_cliff`, the tower bounding-box centre
matches the cliff bounding-box centre in X and Z, and the tower
bounding-box minimum Y equals the cliff stable-top height plus
`placement.y_offset`.  The correction is a single relative translation of
the tower subtree, so this holds for every prior tower bounding box
(`towerBB` is universally quantified and, being the subtree box, includes
the door/lantern/roof children). -/
theorem place_tower_on_cliff_correct (cliffBB : BBox) (cliffYs : List ℚ)
    (pl : PlacementParams) (towerBB : BBox) :
    ((placeTowerOnCliff cliffBB cliffYs pl towerBB).minX +
        (placeTowerOnCliff cliffBB cliffYs pl towerBB).maxX) * (1/2) =
      (cliffBB.minX + cliffBB.maxX) * (1/2) ∧
    ((placeTowerOnCliff cliffBB cliffYs pl towerBB).minZ +
        (placeTowerOnCliff cliffBB cliffYs pl towerBB).maxZ) * (1/2) =
      (cliffBB.minZ + cliffBB.maxZ) * (1/2) ∧
    (placeTowerOnCliff cliffBB cliffYs pl towerBB).minY =
      getCliffTopY cliffYs cliffBB.maxY pl.topShare + pl.y_offset := by
  refine ⟨?_, ?_, ?_⟩ <;>
    simp only [placeTowerOnCliff, placeTowerDeltas, translateBBox] <;> ring

/-- C2: `_get_cliff_top_y` on a mesh with at least one enumerable vertex
returns the arithmetic mean of the largest `max 1 (floor (n * top_ratio))`
values among the vertex world Y coordinates (capped at n): there is a
split of the Y multiset into `R ++ T` with `T` of that size, every element
of `R` at most every element of `T`, and the result the mean of `T`.  On a
mesh with no enumerable vertices it returns the raw bounding-box maximum
Y.  Python `int` truncation and `floor` agree under the `max 1` clamp
(`max_one_pyInt_toNat`). -/
theorem get_cliff_top_y_spec (ys : List ℚ) (bbMaxY share : ℚ) :
    getCliffTopY [] bbMaxY share = bbMaxY ∧
    (ys ≠ [] →
      ∃ T R : List ℚ,
        ys.Perm (R ++ T) ∧
        T.length = min (max 1 ⌊(ys.length : ℚ) * share⌋.toNat) ys.length ∧
        (∀ b ∈ R, ∀ a ∈ T, b ≤ a) ∧
        getCliffTopY ys bbMaxY share = T.sum / (T.length : ℚ)) := by
  constructor
  · simp [getCliffTopY]
  · intro hne
    have hperm : (List.insertionSort (· ≤ ·) ys).Perm ys :=
      List.perm_insertionSort _ ys
    have hlen : (List.insertionSort (· ≤ ·) ys).length = ys.length :=
      hperm.length_eq
    have hsort : (List.insertionSort (· ≤ ·) ys).Sorted (· ≤ ·) :=
      List.sorted_insertionSort _ ys
    set n := (List.insertionSort (· ≤ ·) ys).length with hn
    set tc := max 1 (pyInt ((n : ℚ) * share)).toNat with htc
    refine ⟨(List.insertionSort (· ≤ ·) ys).drop (n - tc),
      (List.insertionSort (· ≤ ·) ys).take (n - tc), ?_, ?_, ?_, ?_⟩
    · rw [List.take_append_drop]
      exact hperm.symm
    · rw [List.length_drop, ← hlen, ← hn, htc,
        max_one_pyInt_toNat ((n : ℚ) * share)]
      have h1 : 1 ≤ max 1 ⌊(n : ℚ) * share⌋.toNat := le_max_left _ _
      omega
    · have hpw := hsort
      rw [← List.take_append_drop (n - tc) (List.insertionSort (· ≤ ·) ys)]
        at hpw
      exact (List.pairwise_append.mp hpw).2.2
    · rw [getCliffTopY, if_neg (by simpa using hne)]

/-- C4 (amended): building the cliff with `width=30, height=10, depth=30`
and `noise_amplitude=0` draws a zero offset for every vertex, for every
seed, every stream and every subdivision choice — but the resulting world
bounding box is `(-15, -5, -15)..(15, 5, 15)`, since `cmds.polyCube`
creates the cube centred at the origin, not resting on `y = 0`. -/
theorem cliff_zero_amplitude_bbox (rand : ℤ → ℕ → ℚ) (st0 : RandState)
    (seed : ℤ) (sx sy sz : ℕ) (hx : sx ≠ 0) (hy : sy ≠ 0) (hz : sz ≠ 0) :
    (∀ st yN, (noiseOffsets rand st (noiseStrength 0 yN)).1 = (0, 0, 0)) ∧
    (buildCliffVerts rand (cliffZeroAmpParams seed sx sy sz) st0).1 =
      polyCubeVerts 30 10 30 sx sy sz ∧
    bboxOfVerts (buildCliffVerts rand (cliffZeroAmpParams seed sx sy sz) st0).1 =
      ⟨-15, -5, -15, 15, 5, 15⟩ := by
  have hid : (buildCliffVerts rand (cliffZeroAmpParams seed sx sy sz) st0).1 =
      polyCubeVerts 30 10 30 sx sy sz :=
    applyVertexNoise_amp_zero rand _ st0 _ rfl
  refine ⟨fun st yN => noiseOffsets_strength_zero rand st yN, hid, ?_⟩
  rw [hid, polyCubeVerts_bbox 30 10 30 (by norm_num) (by norm_num)
    (by norm_num) hx hy hz]
  norm_num

/-- C4 witness: the zero-amplitude scenario at seed 0, unit subdivisions
and the all-zero stream. -/
theorem cliff_zero_amplitude_bbox_witness :
    (∀ st yN,
        (noiseOffsets (fun _ _ => 0) st (noiseStrength 0 yN)).1 = (0, 0, 0)) ∧
    (buildCliffVerts (fun _ _ => 0) (cliffZeroAmpParams 0 1 1 1) ⟨0, 0⟩).1 =
      polyCubeVerts 30 10 30 1 1 1 ∧
    bboxOfVerts
        (buildCliffVerts (fun _ _ => 0) (cliffZeroAmpParams 0 1 1 1) ⟨0, 0⟩).1 =
      ⟨-15, -5, -15, 15, 5, 15⟩ :=
  cliff_zero_amplitude_bbox (fun _ _ => 0) ⟨0, 0⟩ 0 1 1 1 (by decide)
    (by decide) (by decide)

/-- C4 counterexample: at the default subdivisions (40, 20, 40), any seed
and any stream value, the zero-noise cliff bounding box is NOT the
claimed `(-15, 0, -15)..(15, 10, 15)`: the cube is centred at the origin,
so its minimum Y is -5, not 0. -/
theorem cliff_zero_amplitude_bbox_not_claimed :
    bboxOfVerts
        (buildCliffVerts (fun _ _ => 0) (cliffZeroAmpParams 0 40 20 40) ⟨0, 0⟩).1 ≠
      ⟨-15, 0, -15, 15, 10, 15⟩ := by
  have hid : (buildCliffVerts (fun _ _ => 0) (cliffZeroAmpParams 0 40 20 40)
      ⟨0, 0⟩).1 = polyCubeVerts 30 10 30 40 20 40 :=
    applyVertexNoise_amp_zero _ _ _ _ rfl
  rw [hid, polyCubeVerts_bbox 30 10 30 (by norm_num) (by norm_num)
    (by norm_num) (by decide) (by decide) (by decide)]
  intro hcontra
  rw [BBox.mk.injEq] at hcontra
  have hminY := hcontra.2.1
  norm_num at hminY

/-- Helper: one loop iteration of `_apply_vertex_noise` written out: the
three draws consume stream values at indices idx, idx+1, idx+2. -/
theorem noiseOffsets_eq (rand : ℤ → ℕ → ℚ) (st : RandState) (s : ℚ) :
    noiseOffsets rand st s =
      ((-s + (s - -s) * rand st.seed st.idx,
        -s * (35/100) + (s * (35/100) - -s * (35/100)) *
          rand st.seed (st.idx + 1),
        -s + (s - -s) * rand st.seed (st.idx + 2)),
       ⟨st.seed, st.idx + 3⟩) := rfl

/-- Helper: `y_norm` of a vertex of the mesh it belongs to is nonnegative. -/
theorem yNormOf_nonneg {vs : List Vec3} {v : Vec3} (h : v ∈ vs) :
    0 ≤ yNormOf vs v := by
  have hmin : (bboxOfVerts vs).minY ≤ v.y :=
    listMin_le (List.mem_map.mpr ⟨v, h, rfl⟩)
  have hr : (0:ℚ) < heightRangeOf (bboxOfVerts vs).minY (bboxOfVerts vs).maxY :=
    lt_of_lt_of_le (by norm_num) (le_max_right _ _)
  exact div_nonneg (by linarith) (le_of_lt hr)

/-- Helper: the noise strength of an in-mesh vertex is nonnegative for a
nonnegative amplitude. -/
theorem noiseStrength_nonneg {amp yN : ℚ} (hamp : 0 ≤ amp) (hyN : 0 ≤ yN) :
    0 ≤ noiseStrength amp yN := by
  unfold noiseStrength
  nlinarith

/-- C5: for a vertex `v` of the mesh `vs` the deformer's strength is
`noise_amplitude * (0.25 + 0.75 * y_norm)` with `y_norm` from the mesh's
own bounding box, the drawn X/Z offsets land in [-strength, strength] and
the Y offset in [-0.35*strength, 0.35*strength]; the squared displacement
never exceeds `maxDispSq` and attains it (all-ones stream), and
`maxDispSq` is monotone in `y_norm`: a vertex with smaller `y_norm` has a
maximum possible displacement magnitude no larger. -/
theorem vertex_noise_offsets_spec (rand : ℤ → ℕ → ℚ) (st : RandState)
    (vs : List Vec3) (v a b : Vec3) (amp s : ℚ)
    (hu : UnitStream rand) (hv : v ∈ vs) (ha : a ∈ vs) (hb : b ∈ vs)
    (hamp : 0 ≤ amp) (hs : s = noiseStrength amp (yNormOf vs v)) :
    (-s ≤ (noiseOffsets rand st s).1.1 ∧ (noiseOffsets rand st s).1.1 ≤ s) ∧
    (-(s * (35/100)) ≤ (noiseOffsets rand st s).1.2.1 ∧
      (noiseOffsets rand st s).1.2.1 ≤ s * (35/100)) ∧
    (-s ≤ (noiseOffsets rand st s).1.2.2 ∧
      (noiseOffsets rand st s).1.2.2 ≤ s) ∧
    normSq3 (noiseOffsets rand st s).1 ≤ maxDispSq amp (yNormOf vs v) ∧
    normSq3 (noiseOffsets (fun _ _ => 1) st s).1 =
      maxDispSq amp (yNormOf vs v) ∧
    (yNormOf vs a < yNormOf vs b →
      maxDispSq amp (yNormOf vs a) ≤ maxDispSq amp (yNormOf vs b)) := by
  have hyN : 0 ≤ yNormOf vs v := yNormOf_nonneg hv
  have hs0 : 0 ≤ s := hs ▸ noiseStrength_nonneg hamp hyN
  obtain ⟨h1a, h1b⟩ := hu st.seed st.idx
  obtain ⟨h2a, h2b⟩ := hu st.seed (st.idx + 1)
  obtain ⟨h3a, h3b⟩ := hu st.seed (st.idx + 2)
  rw [noiseOffsets_eq, noiseOffsets_eq]
  have hsq : ∀ u : ℚ, 0 ≤ u → u ≤ 1 → (-s + (s - -s) * u) ^ 2 ≤ s ^ 2 := by
    intro u hu0 hu1
    nlinarith [mul_nonneg (mul_nonneg (sq_nonneg s) hu0) (sub_nonneg.mpr hu1)]
  have hsqY : ∀ u : ℚ, 0 ≤ u → u ≤ 1 →
      (-s * (35/100) + (s * (35/100) - -s * (35/100)) * u) ^ 2 ≤
        (49/400) * s ^ 2 := by
    intro u hu0 hu1
    nlinarith [mul_nonneg (mul_nonneg (sq_nonneg s) hu0) (sub_nonneg.mpr hu1)]
  refine ⟨⟨by nlinarith [mul_nonneg hs0 h1a], by nlinarith⟩,
    ⟨by nlinarith [mul_nonneg hs0 h2a], by nlinarith⟩,
    ⟨by nlinarith [mul_nonneg hs0 h3a], by nlinarith⟩, ?_, ?_, ?_⟩
  · have h1 := hsq _ h1a h1b
    have h2 := hsqY _ h2a h2b
    have h3 := hsq _ h3a h3b
    simp only [normSq3, maxDispSq, ← hs]
    linarith
  · simp only [normSq3, maxDispSq, ← hs]
    ring
  · intro hlt
    have hyNa : 0 ≤ yNormOf vs a := yNormOf_nonneg ha
    have hsa : 0 ≤ noiseStrength amp (yNormOf vs a) :=
      noiseStrength_nonneg hamp hyNa
    have hab : noiseStrength amp (yNormOf vs a) ≤
        noiseStrength amp (yNormOf vs b) := by
      unfold noiseStrength
      nlinarith
    simp only [maxDispSq]
    nlinarith [mul_le_mul hab hab hsa (le_trans hsa hab)]

/-- C5 witness: the two-vertex mesh [(0,0,0), (0,1,0)] with amplitude 1
and the all-zero stream. -/
theorem vertex_noise_offsets_spec_witness :
    (-(noiseStrength 1 (yNormOf [⟨0,0,0⟩, ⟨0,1,0⟩] ⟨0,0,0⟩)) ≤
        (noiseOffsets (fun _ _ => 0) ⟨0,0⟩
          (noiseStrength 1 (yNormOf [⟨0,0,0⟩, ⟨0,1,0⟩] ⟨0,0,0⟩))).1.1 ∧
      (noiseOffsets (fun _ _ => 0) ⟨0,0⟩
          (noiseStrength 1 (yNormOf [⟨0,0,0⟩, ⟨0,1,0⟩] ⟨0,0,0⟩))).1.1 ≤
        noiseStrength 1 (yNormOf [⟨0,0,0⟩, ⟨0,1,0⟩] ⟨0,0,0⟩)) ∧
    (-(noiseStrength 1 (yNormOf [⟨0,0,0⟩, ⟨0,1,0⟩] ⟨0,0,0⟩) * (35/100)) ≤
        (noiseOffsets (fun _ _ => 0) ⟨0,0⟩
          (noiseStrength 1 (yNormOf [⟨0,0,0⟩, ⟨0,1,0⟩] ⟨0,0,0⟩))).1.2.1 ∧
      (noiseOffsets (fun _ _ => 0) ⟨0,0⟩
          (noiseStrength 1 (yNormOf [⟨0,0,0⟩, ⟨0,1,0⟩] ⟨0,0,0⟩))).1.2.1 ≤
        noiseStrength 1 (yNormOf [⟨0,0,0⟩, ⟨0,1,0⟩] ⟨0,0,0⟩) * (35/100)) ∧
    (-(noiseStrength 1 (yNormOf [⟨0,0,0⟩, ⟨0,1,0⟩] ⟨0,0,0⟩)) ≤
        (noiseOffsets (fun _ _ => 0) ⟨0,0⟩
          (noiseStrength 1 (yNormOf [⟨0,0,0⟩, ⟨0,1,0⟩] ⟨0,0,0⟩))).1.2.2 ∧
      (noiseOffsets (fun _ _ => 0) ⟨0,0⟩
          (noiseStrength 1 (yNormOf [⟨0,0,0⟩, ⟨0,1,0⟩] ⟨0,0,0⟩))).1.2.2 ≤
        noiseStrength 1 (yNormOf [⟨0,0,0⟩, ⟨0,1,0⟩] ⟨0,0,0⟩)) ∧
    normSq3 (noiseOffsets (fun _ _ => 0) ⟨0,0⟩
        (noiseStrength 1 (yNormOf [⟨0,0,0⟩, ⟨0,1,0⟩] ⟨0,0,0⟩))).1 ≤
      maxDispSq 1 (yNormOf [⟨0,0,0⟩, ⟨0,1,0⟩] ⟨0,0,0⟩) ∧
    normSq3 (noiseOffsets (fun _ _ => 1) ⟨0,0⟩
        (noiseStrength 1 (yNormOf [⟨0,0,0⟩, ⟨0,1,0⟩] ⟨0,0,0⟩))).1 =
      maxDispSq 1 (yNormOf [⟨0,0,0⟩, ⟨0,1,0⟩] ⟨0,0,0⟩) ∧
    (yNormOf [⟨0,0,0⟩, ⟨0,1,0⟩] ⟨0,0,0⟩ <
        yNormOf [⟨0,0,0⟩, ⟨0,1,0⟩] ⟨0,1,0⟩ →
      maxDispSq 1 (yNormOf [⟨0,0,0⟩, ⟨0,1,0⟩] ⟨0,0,0⟩) ≤
        maxDispSq 1 (yNormOf [⟨0,0,0⟩, ⟨0,1,0⟩] ⟨0,1,0⟩)) :=
  vertex_noise_offsets_spec (fun _ _ => 0) ⟨0,0⟩ [⟨0,0,0⟩, ⟨0,1,0⟩]
    ⟨0,0,0⟩ ⟨0,0,0⟩ ⟨0,1,0⟩ 1 _
    (fun s n => ⟨by simp, by simp⟩) (by decide) (by decide) (by decide)
    (by decide) rfl

/-- Helper: the vertex loop never changes the seed of the stream it
draws from. -/
theorem noiseLoop_seed (rand : ℤ → ℕ → ℚ) (amp m hr : ℚ) (st : RandState)
    (l : List Vec3) : (noiseLoop rand amp m hr st l).2.seed = st.seed := by
  induction l generalizing st with
  | nil => rfl
  | cons v t ih =>
    simp only [noiseLoop]
    exact (ih _).trans rfl

/-- Helper: `_apply_vertex_noise` leaves the global stream seeded with
`p.seed`. -/
theorem applyVertexNoise_seed (rand : ℤ → ℕ → ℚ) (p : CliffParams)
    (st0 : RandState) (vs : List Vec3) :
    (applyVertexNoise rand p st0 vs).2.seed = p.seed := by
  unfold applyVertexNoise
  by_cases hv : vs.isEmpty
  · simp [hv, randomSeed]
  · simp [hv, noiseLoop_seed, randomSeed]

/-- Helper: the face-color loop never changes the seed either. -/
theorem faceColor_foldl_seed (rand : ℤ → ℕ → ℚ) (base varr : ℚ)
    (l : List ℕ) (acc : List ℚ × RandState) :
    (l.foldl (fun acc _ =>
        let u := pyUniform rand acc.2 (-varr) varr
        (acc.1 ++ [pyClamp01 (base + u.1)], u.2)) acc).2.seed =
      acc.2.seed := by
  induction l generalizing acc with
  | nil => rfl
  | cons x t ih =>
    rw [List.foldl_cons]
    exact (ih _).trans rfl

/-- C6: determinism and seed separation of the two deformation passes.
For a fixed stream function (the Mersenne Twister), fixed parameters and
the same vertex enumeration, two runs of `_apply_vertex_noise` started in
ANY two prior states of the global `random` module produce identical
displaced vertices, because the pass begins with `random.seed(p.seed)`;
likewise `_apply_face_color_variation` produces identical face colors,
and (when enabled) it reseeds with `p.seed + 1000`, a seed distinct from
the vertex pass's `p.seed`. -/
theorem deformer_determinism_and_seed_offsets (rand : ℤ → ℕ → ℚ)
    (p : CliffParams) (vs : List Vec3) (n : ℕ) (st1 st2 : RandState) :
    (applyVertexNoise rand p st1 vs).1 = (applyVertexNoise rand p st2 vs).1 ∧
    (applyVertexNoise rand p st1 vs).2.seed = p.seed ∧
    (applyFaceColorVariation rand p st1 n).1 =
      (applyFaceColorVariation rand p st2 n).1 ∧
    (p.enable_face_colors = true →
      (applyFaceColorVariation rand p st1 n).2.seed = p.seed + 1000) ∧
    p.seed + 1000 ≠ p.seed := by
  refine ⟨rfl, applyVertexNoise_seed rand p st1 vs, ?_, ?_, ?_⟩
  · by_cases he : p.enable_face_colors <;>
      simp [applyFaceColorVariation, he]
  · intro he
    simp only [applyFaceColorVariation, he, Bool.not_true, Bool.false_eq_true,
      if_false]
    exact (faceColor_foldl_seed rand p.face_color_base
      p.face_color_variation (List.range n) _).trans rfl
  · intro hcontra
    omega

/-- Helper: every (level, spoke) pair within range is a cylinder ring
vertex, at the cylinder radius. -/
theorem ring_mem_polyCylinderVerts (h r : ℚ) {sx sy j i : ℕ}
    (hj : j ≤ sy) (hi : i < sx) :
    (⟨.ring j i, r, -(h * (1/2)) + h * j / sy⟩ : CylVert) ∈
      polyCylinderVerts h r sx sy := by
  unfold polyCylinderVerts
  refine List.mem_append_left _ ?_
  refine List.mem_flatMap.mpr ⟨j, List.mem_range.mpr (Nat.lt_succ_of_le hj), ?_⟩
  exact List.mem_map.mpr ⟨i, List.mem_range.mpr hi, rfl⟩

/-- C7: the taper scales only the last face.  In the draft tower with
radius_base = 4.0 and radius_top = 2.0 the cylinder has 16 top-ring
vertices, but `_create_tapered_cylinder` converts only the LAST face —
one top-cap fan triangle — to vertices, so only the two top-ring vertices
of that triangle (spokes 15 and 0) are scaled to horizontal distance 2;
every other top-ring vertex (here spoke 5) keeps distance 4, where the
claim demands 2.  The ~0 `radius_base` guard does skip scaling and emit
the unmodified cylinder. -/
theorem taper_scales_only_last_face :
    (∃ v ∈ createTaperedCylinder taperScenarioParams,
       v.vid = .ring 6 5 ∧ v.radius = 4) ∧
    (∃ v ∈ createTaperedCylinder taperScenarioParams,
       v.vid = .ring 6 0 ∧ v.radius = 2) ∧
    (∀ p : TowerParams, ¬(p.radius_base > 1/10000) →
      createTaperedCylinder p =
        polyCylinderVerts p.height p.radius_base
          (if p.quality = qDRAFT then 16 else p.subdivisions_axis)
          (if p.quality = qDRAFT then 6 else p.subdivisions_height)) ∧
    (4:ℚ) ≠ 2 := by
  have hEq : createTaperedCylinder taperScenarioParams =
      scaleVertsXZ (lastTopCapFaceVertIds 16 6) (2/4)
        (polyCylinderVerts 28 4 16 6) := by
    unfold createTaperedCylinder taperScenarioParams
    norm_num [qDRAFT]
  refine ⟨?_, ?_, ?_, by norm_num⟩
  · refine ⟨⟨.ring 6 5, 4, -(28 * (1/2)) + 28 * 6 / 6⟩, ?_, rfl, rfl⟩
    rw [hEq]
    refine List.mem_map.mpr
      ⟨⟨.ring 6 5, 4, -(28 * (1/2)) + 28 * 6 / 6⟩,
       ring_mem_polyCylinderVerts 28 4 (by decide) (by decide), ?_⟩
    rw [if_neg (by decide)]
  · refine ⟨⟨.ring 6 0, 4 * (2/4), -(28 * (1/2)) + 28 * 6 / 6⟩, ?_,
      rfl, by norm_num⟩
    rw [hEq]
    refine List.mem_map.mpr
      ⟨⟨.ring 6 0, 4, -(28 * (1/2)) + 28 * 6 / 6⟩,
       ring_mem_polyCylinderVerts 28 4 (by decide) (by decide), ?_⟩
    rw [if_pos (by decide)]
  · intro p hng
    unfold createTaperedCylinder
    rw [if_neg hng]

/-- C8 (amended): at high quality the dome cull of `_add_lantern` tests
every face, so after culling no kept face has its centroid Y below the
sphere centre.  (At draft quality only every 8th face is tested — see the
counterexample theorem.) -/
theorem roof_cull_high_no_face_below (centroids : List ℚ) (centerY : ℚ) :
    ∀ f ∈ roofCullKeep qHIGH centroids centerY, ¬(f.2 < centerY) := by
  intro f hf hlt
  simp only [roofCullKeep] at hf
  rw [if_neg (by decide : ¬(qHIGH = qDRAFT))] at hf
  rw [List.mem_filter] at hf
  have hmem : f ∈ centroids.enum.filter (fun g => decide (g.2 < centerY)) :=
    List.mem_filter.mpr ⟨hf.1, by simpa using hlt⟩
  have hcont : (List.filter (fun g => decide (g.2 < centerY))
      centroids.enum).contains f = true := List.elem_iff.mpr hmem
  rw [hcont] at hf
  simp at hf

/-- C8 witness: the high-quality cull at centroids [0, 2] and centre 1
keeps face 1 (centroid 2), which is not below the centre. -/
theorem roof_cull_high_no_face_below_witness :
    ¬(((1:ℕ), (2:ℚ)).2 < 1) :=
  roof_cull_high_no_face_below [0, 2] 1 (1, 2) (by decide)

/-- C8 counterexample: at draft quality `_add_lantern` tests only
`faces[::8]`.  With nine consecutive faces of centroid Y 0 below a sphere
centre at Y 1 — as in the bottom cap-fan ring of the draft roof sphere
(sx = 18, so 18 consecutive sub-centre faces) — face 1 is never examined
and survives the cull with its centroid below the centre, contradicting
the claim for the draft tier. -/
theorem roof_cull_draft_keeps_face_below :
    ((1:ℕ), (0:ℚ)) ∈ roofCullKeep qDRAFT (List.replicate 9 0) 1 ∧
    ((0:ℚ) < 1) := by
  decide

/-- C3: `get_preset` raises on EVERY known preset name, because
`config.py` passes `quality=quality` to `CliffParams`, whose dataclass
declares no `quality` field — a `TypeError` before any mesh is created.
Only the unknown-name branch behaves as the spec says, raising a
descriptive `ValueError`.  Evaluated here at all three known presets (both
qualities, and a mixed-case spelling) and at an unknown name. -/
theorem get_preset_known_presets_raise :
    get_preset pSHUTTER qDRAFT = .error (eUnexpectedKw ++ "quality") ∧
    get_preset pCALM qDRAFT = .error (eUnexpectedKw ++ "quality") ∧
    get_preset pSTORM qDRAFT = .error (eUnexpectedKw ++ "quality") ∧
    get_preset pSHUTTER qHIGH = .error (eUnexpectedKw ++ "quality") ∧
    get_preset pCALM qHIGH = .error (eUnexpectedKw ++ "quality") ∧
    get_preset pSTORM qHIGH = .error (eUnexpectedKw ++ "quality") ∧
    get_preset pShutterTitle qHIGH = .error (eUnexpectedKw ++ "quality") ∧
    get_preset pBOGUS qDRAFT = .error (eUnknownPreset ++ pBOGUS) :=
  ⟨rfl, rfl, rfl, rfl, rfl, rfl, rfl, rfl⟩

/-- Helper: after an ensure step the container exists. -/
theorem ensureOne_exists_self (s : Scene) (n : String) (p : Option String) :
    objExists (ensureOne s n p) n = true := by
  unfold ensureOne
  by_cases h : objExists s n = true
  · rw [if_pos h]; exact h
  · rw [if_neg h]
    simp [objExists, addGroup, List.any_append]

/-- Helper: an ensure step never removes an existing container. -/
theorem ensureOne_exists_mono (n : String) (p : Option String) {s : Scene}
    {m : String} (h : objExists s m = true) :
    objExists (ensureOne s n p) m = true := by
  unfold ensureOne
  by_cases hg : objExists s n = true
  · rw [if_pos hg]; exact h
  · rw [if_neg hg]
    simp only [objExists, addGroup, List.any_append, Bool.or_eq_true]
    exact Or.inl h

/-- Helper: an ensure step for a different name does not change whether a
name exists. -/
theorem ensureOne_exists_other (s : Scene) (n : String) (p : Option String)
    {m : String} (hne : n ≠ m) :
    objExists (ensureOne s n p) m = objExists s m := by
  unfold ensureOne
  by_cases hg : objExists s n = true
  · rw [if_pos hg]
  · rw [if_neg hg]
    simp [objExists, addGroup, List.any_append, hne]

/-- Helper: an ensure step on an existing container changes nothing. -/
theorem ensureOne_noop {s : Scene} {n : String} (p : Option String)
    (h : objExists s n = true) : ensureOne s n p = s := if_pos h

/-- Helper: without the container, nothing in the scene carries its name. -/
theorem countName_zero_of_not_exists {s : Scene} {n : String}
    (h : objExists s n = false) : countName s n = 0 := by
  rw [countName, List.length_eq_zero]
  rw [List.filter_eq_nil]
  intro nd hnd
  have := List.any_eq_false.mp h nd hnd
  simpa using this

/-- Helper: with the container, at least one node carries its name. -/
theorem countName_pos_of_exists {s : Scene} {n : String}
    (h : objExists s n = true) : 1 ≤ countName s n := by
  obtain ⟨nd, hnd, hp⟩ := List.any_eq_true.mp h
  have : nd ∈ s.filter (fun x => x.name == n) := List.mem_filter.mpr ⟨hnd, hp⟩
  have hne := List.ne_nil_of_mem this
  rw [countName]
  exact List.length_pos.mpr hne

/-- Helper: creating the container adds exactly one node of its name. -/
theorem countName_addGroup_self (s : Scene) (n : String) (p : Option String) :
    countName (addGroup s n p) n = countName s n + 1 := by
  simp [countName, addGroup, List.filter_append]

/-- Helper: creating a container leaves other name counts alone. -/
theorem countName_addGroup_other (s : Scene) (n : String) (p : Option String)
    {m : String} (hne : n ≠ m) :
    countName (addGroup s n p) m = countName s m := by
  simp [countName, addGroup, List.filter_append, hne]

/-- Helper: an ensure step yields exactly one container of the name when
the scene had at most one. -/
theorem ensureOne_count_self {s : Scene} {n : String} (p : Option String)
    (h : countName s n ≤ 1) : countName (ensureOne s n p) n = 1 := by
  unfold ensureOne
  by_cases hg : objExists s n = true
  · rw [if_pos hg]
    have := countName_pos_of_exists hg
    omega
  · rw [if_neg hg]
    rw [countName_addGroup_self,
      countName_zero_of_not_exists (Bool.not_eq_true _ ▸ hg)]

/-- Helper: an ensure step for a different name leaves a count alone. -/
theorem ensureOne_count_other (s : Scene) (n : String) (p : Option String)
    {m : String} (hne : n ≠ m) :
    countName (ensureOne s n p) m = countName s m := by
  unfold ensureOne
  by_cases hg : objExists s n = true
  · rw [if_pos hg]
  · rw [if_neg hg, countName_addGroup_other s n p hne]

/-- Helper: the ensure step creates the container under the requested
parent when it was missing. -/
theorem ensureOne_mem_new {s : Scene} {n : String} (p : Option String)
    (h : objExists s n = false) : (⟨n, p⟩ : SceneNode) ∈ ensureOne s n p := by
  unfold ensureOne
  rw [if_neg (by rw [h]; exact Bool.false_ne_true)]
  simp [addGroup]

/-- Helper: an ensure step keeps every node of the scene. -/
theorem ensureOne_mem_mono {s : Scene} {x : SceneNode} (n : String)
    (p : Option String) (h : x ∈ s) : x ∈ ensureOne s n p := by
  unfold ensureOne
  by_cases hg : objExists s n = true
  · rw [if_pos hg]; exact h
  · rw [if_neg hg]
    exact List.mem_append_left _ h

/-- Helper: the two-step ensure of the cliff/tower builders is
idempotent. -/
theorem ensure_pair_idem (s : Scene) (n1 n2 : String) (p1 p2 : Option String) :
    ensureOne (ensureOne (ensureOne (ensureOne s n1 p1) n2 p2) n1 p1) n2 p2 =
      ensureOne (ensureOne s n1 p1) n2 p2 := by
  rw [ensureOne_noop p1 (ensureOne_exists_mono n2 p2 (ensureOne_exists_self s n1 p1)),
    ensureOne_noop p2 (ensureOne_exists_self _ n2 p2)]

/-- C9: group scaffolding is idempotent.  Each `_ensure_groups` (cliff,
tower) and the env-group ensure is idempotent; a call with the containers
already present creates and modifies nothing; from a scene with at most
one container of a well-known name (root, cliff, tower, env) the ensure
step leaves exactly one — also across successive builds composing all
three ensures — and a missing container is created under its designated
parent (the root under the world). -/
theorem ensure_groups_idempotent (s : Scene) :
    ensureCliffGroups (ensureCliffGroups s) = ensureCliffGroups s ∧
    ensureTowerGroups (ensureTowerGroups s) = ensureTowerGroups s ∧
    ensureEnvGroup (ensureEnvGroup s) = ensureEnvGroup s ∧
    (objExists s sROOT = true → objExists s sCLIFF = true →
      ensureCliffGroups s = s) ∧
    (objExists s sROOT = true → objExists s sTOWER = true →
      ensureTowerGroups s = s) ∧
    (objExists s sENV = true → ensureEnvGroup s = s) ∧
    (countName s sROOT ≤ 1 → countName (ensureCliffGroups s) sROOT = 1) ∧
    (countName s sCLIFF ≤ 1 → countName (ensureCliffGroups s) sCLIFF = 1) ∧
    (countName s sTOWER ≤ 1 → countName (ensureTowerGroups s) sTOWER = 1) ∧
    (countName s sENV ≤ 1 → countName (ensureEnvGroup s) sENV = 1) ∧
    (countName s sROOT ≤ 1 →
      countName (ensureEnvGroup (ensureTowerGroups (ensureCliffGroups s)))
        sROOT = 1) ∧
    (countName s sCLIFF ≤ 1 →
      countName (ensureEnvGroup (ensureTowerGroups (ensureCliffGroups s)))
        sCLIFF = 1) ∧
    (objExists s sCLIFF = false →
      (⟨sCLIFF, some sROOT⟩ : SceneNode) ∈ ensureCliffGroups s) ∧
    (objExists s sTOWER = false →
      (⟨sTOWER, some sROOT⟩ : SceneNode) ∈ ensureTowerGroups s) ∧
    (objExists s sENV = false →
      (⟨sENV, some sROOT⟩ : SceneNode) ∈ ensureEnvGroup s) ∧
    (objExists s sROOT = false →
      (⟨sROOT, none⟩ : SceneNode) ∈ ensureCliffGroups s) := by
  refine ⟨ensure_pair_idem s sROOT sCLIFF none (some sROOT),
    ensure_pair_idem s sROOT sTOWER none (some sROOT),
    ensureOne_noop (some sROOT) (ensureOne_exists_self s sENV (some sROOT)),
    ?_, ?_, ?_, ?_, ?_, ?_, ?_, ?_, ?_, ?_, ?_, ?_, ?_⟩
  · intro h1 h2
    show ensureOne (ensureOne s sROOT none) sCLIFF (some sROOT) = s
    rw [ensureOne_noop none h1, ensureOne_noop (some sROOT) h2]
  · intro h1 h2
    show ensureOne (ensureOne s sROOT none) sTOWER (some sROOT) = s
    rw [ensureOne_noop none h1, ensureOne_noop (some sROOT) h2]
  · intro h1
    exact ensureOne_noop (some sROOT) h1
  · intro h
    show countName (ensureOne (ensureOne s sROOT none) sCLIFF (some sROOT))
      sROOT = 1
    rw [ensureOne_count_other _ sCLIFF _ (by decide)]
    exact ensureOne_count_self none h
  · intro h
    show countName (ensureOne (ensureOne s sROOT none) sCLIFF (some sROOT))
      sCLIFF = 1
    refine ensureOne_count_self (some sROOT) ?_
    rw [ensureOne_count_other _ sROOT _ (by decide)]
    exact h
  · intro h
    show countName (ensureOne (ensureOne s sROOT none) sTOWER (some sROOT))
      sTOWER = 1
    refine ensureOne_count_self (some sROOT) ?_
    rw [ensureOne_count_other _ sROOT _ (by decide)]
    exact h
  · intro h
    exact ensureOne_count_self (some sROOT) h
  · intro h
    have hX : countName (ensureCliffGroups s) sROOT = 1 := by
      show countName (ensureOne (ensureOne s sROOT none) sCLIFF (some sROOT))
        sROOT = 1
      rw [ensureOne_count_other _ sCLIFF _ (by decide)]
      exact ensureOne_count_self none h
    show countName (ensureOne (ensureOne (ensureOne (ensureCliffGroups s)
      sROOT none) sTOWER (some sROOT)) sENV (some sROOT)) sROOT = 1
    rw [ensureOne_count_other _ sENV _ (by decide),
      ensureOne_count_other _ sTOWER _ (by decide)]
    exact ensureOne_count_self none (le_of_eq hX)
  · intro h
    have hX : countName (ensureCliffGroups s) sCLIFF = 1 := by
      show countName (ensureOne (ensureOne s sROOT none) sCLIFF (some sROOT))
        sCLIFF = 1
      refine ensureOne_count_self (some sROOT) ?_
      rw [ensureOne_count_other _ sROOT _ (by decide)]
      exact h
    show countName (ensureOne (ensureOne (ensureOne (ensureCliffGroups s)
      sROOT none) sTOWER (some sROOT)) sENV (some sROOT)) sCLIFF = 1
    rw [ensureOne_count_other _ sENV _ (by decide),
      ensureOne_count_other _ sTOWER _ (by decide),
      ensureOne_count_other _ sROOT _ (by decide)]
    exact hX
  · intro h
    refine ensureOne_mem_new (some sROOT) ?_
    rw [ensureOne_exists_other s sROOT none (by decide)]
    exact h
  · intro h
    refine ensureOne_mem_new (some sROOT) ?_
    rw [ensureOne_exists_other s sROOT none (by decide)]
    exact h
  · intro h
    exact ensureOne_mem_new (some sROOT) h
  · intro h
    exact ensureOne_mem_mono sCLIFF (some sROOT) (ensureOne_mem_new none h)

/-- C10: `cleanup` touches only the root subtree.  Without the root group
it is a no-op (and raises nothing — it is total); any node that is not
the root and not transitively parented under it — in particular the
memoized material and shading-group nodes, which have no DAG parent —
survives every call, as the concrete one-build scene shows. -/
theorem cleanup_only_root_subtree (s : Scene) :
    (objExists s sROOT = false → cleanup s = s) ∧
    (∀ nd ∈ s, underRoot s s.length nd.name = false → nd ∈ cleanup s) ∧
    cleanup exampleBuiltScene = [⟨sCLIFF_MAT, none⟩, ⟨sCLIFF_SG, none⟩] := by
  refine ⟨?_, ?_, by decide⟩
  · intro h
    unfold cleanup
    rw [if_neg (by rw [h]; exact Bool.false_ne_true)]
  · intro nd hmem hnot
    unfold cleanup
    by_cases hr : objExists s sROOT = true
    · rw [if_pos hr]
      exact List.mem_filter.mpr ⟨hmem, by rw [hnot]; rfl⟩
    · rw [if_neg hr]
      exact hmem

end LHT
